import Mathlib

/-!
Verification of the session-pairing and message-relay core of the
FileTransferP2P signaling server (src/main.py).

The Python dictionaries of `SessionManager` are modelled as association
lists with Python-dict semantics: `dlookup` finds the first binding,
`dinsert` replaces an existing binding in place (or appends a fresh one),
`derase` removes the binding for a key (removing every pair with that key;
dict keys are unique, so at most one exists in reachable states).
`datetime.now()` is modelled as a `Nat` timestamp passed explicitly;
`timedelta(minutes=10)` becomes the constant `sessionTTL`.  WebSocket
transport handles are opaque and modelled as `Nat`.
-/

namespace FileTransferP2P

/-- Association-list lookup, mirroring Python `d[k]` / `k in d`. -/
def dlookup {α : Type} (d : List (String × α)) (k : String) : Option α :=
  match d with
  | [] => none
  | (k₁, v) :: rest => if k₁ = k then some v else dlookup rest k

/-- Association-list insert with Python-dict semantics: replace the first
binding for the key in place, otherwise append at the end. -/
def dinsert {α : Type} (d : List (String × α)) (k : String) (v : α) :
    List (String × α) :=
  match d with
  | [] => [(k, v)]
  | (k₁, v₁) :: rest =>
    if k₁ = k then (k, v) :: rest else (k₁, v₁) :: dinsert rest k v

/-- Association-list delete, mirroring Python `del d[k]` (on absent keys it
is the identity, mirroring the guarded `if k in d: del d[k]` uses). -/
def derase {α : Type} (d : List (String × α)) (k : String) :
    List (String × α) :=
  match d with
  | [] => []
  | (k₁, v) :: rest =>
    if k₁ = k then derase rest k else (k₁, v) :: derase rest k

/-- Delete a list of keys in order (left fold of `derase`). -/
def deraseAll {α : Type} (d : List (String × α)) (ks : List String) :
    List (String × α) :=
  ks.foldl derase d

/-- The session record stored in `SessionManager.sessions`
(src/main.py lines 43-51). -/
structure Session where
  otp : String
  created_at : Nat
  status : String
  users : List String
  expires_at : Nat
  creator_id : Option String
  joiner_id : Option String
  deriving DecidableEq, Repr

/-- The whole mutable state of `SessionManager` (src/main.py lines 29-32). -/
structure SMState where
  sessions : List (String × Session)
  connections : List (String × Nat)
  user_to_session : List (String × String)
  deriving DecidableEq, Repr

/-- The empty manager produced by `SessionManager.__init__`. -/
def initialState : SMState :=
  { sessions := [], connections := [], user_to_session := [] }

/-- The `timedelta(minutes=10)` TTL of `create_session`, in seconds. -/
def sessionTTL : Nat := 600

/-- Model of `SessionManager.generate_otp` (src/main.py lines 34-36):
`random.choices(string.digits, k=6)` joined.  The six random draws are
modelled as an explicit input `choices`. -/
def generate_otp (choices : Fin 6 → Fin 10) : String :=
  String.mk ((List.finRange 6).map (fun i => Char.ofNat (48 + (choices i).val)))

/-- Model of `SessionManager.create_session` (src/main.py lines 38-53).  The fresh
`uuid4` and the freshly generated OTP are explicit inputs; the current
time `now` stands for `datetime.now()`.  The session is stored
unconditionally; the source performs no collision check. -/
def create_session (st : SMState) (session_id otp : String) (now : Nat) :
    SMState × String × String :=
  ({ st with
      sessions := dinsert st.sessions session_id
        { otp := otp
          created_at := now
          status := "waiting_for_peer"
          users := []
          expires_at := now + sessionTTL
          creator_id := none
          joiner_id := none } },
   session_id, otp)

/-- Model of `SessionManager.validate_otp` (src/main.py lines 55-65): scan the
session table in order and return the first session id whose OTP matches,
whose expiry is strictly in the future and which has fewer than 2 users. -/
def validate_otp_scan (l : List (String × Session)) (otp : String) (now : Nat) :
    Option String :=
  match l with
  | [] => none
  | (session_id, session) :: rest =>
    if session.otp = otp ∧ now < session.expires_at ∧ session.users.length < 2 then
      some session_id
    else
      validate_otp_scan rest otp now

/-- Model of `SessionManager.validate_otp` applied to the manager state. -/
def validate_otp (st : SMState) (otp : String) (now : Nat) : Option String :=
  validate_otp_scan st.sessions otp now

/-- The dictionary returned by `SessionManager.add_user_to_session`. -/
inductive AddResult where
  | failure (error : String)
  | success (role : String) (session_status : String) (users_count : Nat)
  deriving DecidableEq, Repr

/-- Model of `SessionManager.add_user_to_session` (src/main.py lines 67-96): reject
when the session is unknown or already has 2 users; otherwise append the
user, register its connection and session, and assign role `creator` to a
sole occupant and `joiner` (with status `connected`) to a second one. -/
def add_user_to_session (st : SMState) (session_id user_id : String) (ws : Nat) :
    SMState × AddResult :=
  match dlookup st.sessions session_id with
  | none => (st, AddResult.failure "Session not found")
  | some session =>
    if 2 ≤ session.users.length then
      (st, AddResult.failure "Session full")
    else
      let users' := session.users ++ [user_id]
      if users'.length = 1 then
        ({ sessions := dinsert st.sessions session_id
             { session with users := users', creator_id := some user_id }
           connections := dinsert st.connections user_id ws
           user_to_session := dinsert st.user_to_session user_id session_id },
         AddResult.success "creator" session.status users'.length)
      else
        ({ sessions := dinsert st.sessions session_id
             { session with users := users', joiner_id := some user_id,
                            status := "connected" }
           connections := dinsert st.connections user_id ws
           user_to_session := dinsert st.user_to_session user_id session_id },
         AddResult.success "joiner" "connected" users'.length)

/-- Model of `SessionManager.remove_user_from_session` (src/main.py lines 98-122):
drop the connection entry, drop the user-to-session entry, remove the user
from its session's user list and clear its role field; delete the session
when its user list becomes empty, otherwise revert its status to
`waiting_for_peer`. -/
def remove_user_from_session (st : SMState) (user_id : String) : SMState :=
  let connections' := derase st.connections user_id
  match dlookup st.user_to_session user_id with
  | none => { st with connections := connections' }
  | some session_id =>
    let user_to_session' := derase st.user_to_session user_id
    match dlookup st.sessions session_id with
    | none => { st with connections := connections',
                        user_to_session := user_to_session' }
    | some session =>
      let session' :=
        if user_id ∈ session.users then
          { session with
              users := session.users.erase user_id
              creator_id :=
                if session.creator_id = some user_id then none
                else session.creator_id
              joiner_id :=
                if session.joiner_id = some user_id then none
                else session.joiner_id }
        else session
      if session'.users.length = 0 then
        { sessions := derase st.sessions session_id
          connections := connections'
          user_to_session := user_to_session' }
      else
        { sessions := dinsert st.sessions session_id
            { session' with status := "waiting_for_peer" }
          connections := connections'
          user_to_session := user_to_session' }

/-- Model of `SessionManager.get_peer_connection` (src/main.py lines 124-144):
resolve the sender's session, require exactly 2 users, find the first user
id different from the sender and return its connection handle. -/
def get_peer_connection (st : SMState) (user_id : String) : Option Nat :=
  match dlookup st.user_to_session user_id with
  | none => none
  | some session_id =>
    match dlookup st.sessions session_id with
    | none => none
    | some session =>
      if session.users.length ≠ 2 then none
      else
        match session.users.find? (fun uid => !(uid == user_id)) with
        | none => none
        | some peer_id => dlookup st.connections peer_id

/-- One step of the expired-session loop of `cleanup_expired_sessions`:
delete each attached user's connection and user-to-session entries, then
delete the session itself. -/
def cleanupUserStep (st : SMState) (uid : String) : SMState :=
  { st with connections := derase st.connections uid,
            user_to_session := derase st.user_to_session uid }

/-- Processing of one expired session inside `cleanup_expired_sessions`. -/
def cleanupStep (st : SMState) (p : String × Session) : SMState :=
  let st' := p.2.users.foldl cleanupUserStep st
  { st' with sessions := derase st'.sessions p.1 }

/-- Model of `SessionManager.cleanup_expired_sessions` (src/main.py lines 159-177):
collect the sessions whose `expires_at < now`, delete each of them together
with its users' registry entries, and report the number of sessions cleaned
(the source prints this count).  Keys of the session table are unique in
every reachable state, so iterating over the expired (key, session) pairs
matches the source's `self.sessions[session_id]` lookups. -/
def cleanup_expired_sessions (st : SMState) (now : Nat) : SMState × Nat :=
  let expired := st.sessions.filter (fun p => decide (p.2.expires_at < now))
  (expired.foldl cleanupStep st, expired.length)

/-- An inbound signaling message as read by `websocket_endpoint`
(src/main.py line 289): only its `type` and opaque `data` fields matter to
the router; either may be absent. -/
structure InMsg where
  msgType : Option String
  data : Option String
  deriving DecidableEq, Repr

/-- The observable effect of handling one inbound message
(src/main.py lines 292-320). -/
inductive OutEvent where
  | forwardToPeer (ws : Nat) (envType : String) (envFrom : String)
      (envData : Option String) (envTimestamp : Nat)
  | errorToSender (message : String)
  | pongToSender (timestamp : Nat)
  deriving DecidableEq, Repr

/-- Whether an event is a forward to the peer. -/
def OutEvent.isForward : OutEvent → Bool
  | OutEvent.forwardToPeer _ _ _ _ _ => true
  | _ => false

/-- The reserved forwardable types of src/main.py line 292. -/
def signalingTypes : List String :=
  ["offer", "answer", "ice-candidate", "file-info", "transfer-complete"]

/-- The per-message body of the `while True` loop of `websocket_endpoint`
(src/main.py lines 292-320): forward a whitelisted type to the peer as the
envelope (type, from, data, timestamp) when a peer connection exists,
answer `ping` with `pong`, and report every other type to the sender as an
unknown-type error.  The session-manager state is only read, never
written. -/
def handle_message (st : SMState) (user_id : String) (msg : InMsg) (now : Nat) :
    SMState × OutEvent :=
  match msg.msgType with
  | some t =>
    if signalingTypes.contains t then
      match get_peer_connection st user_id with
      | some peer_ws =>
        (st, OutEvent.forwardToPeer peer_ws t user_id msg.data now)
      | none => (st, OutEvent.errorToSender "Peer not connected")
    else if t = "ping" then
      (st, OutEvent.pongToSender now)
    else
      (st, OutEvent.errorToSender ("Unknown message type: " ++ t))
  | none => (st, OutEvent.errorToSender "Unknown message type: None")

/-- The observable messages of the connection phase of
`websocket_endpoint` (src/main.py lines 266-284), all sent on the
connecting party's own socket. -/
inductive ConnectEvent where
  | errorToSelf (message : String)
  | closeSelf
  | connectedToSelf (user_id : String) (role : String)
      (session_status : String) (users_count : Nat)
  deriving DecidableEq, Repr

/-- The connection phase of `websocket_endpoint` (src/main.py lines
266-284): attach via `add_user_to_session`; on failure send the error to
the connecting socket and close it, on success send the `connected`
confirmation. -/
def handle_connect (st : SMState) (session_id user_id : String) (ws : Nat) :
    SMState × List ConnectEvent :=
  match add_user_to_session st session_id user_id ws with
  | (st', AddResult.failure err) =>
    (st', [ConnectEvent.errorToSelf err, ConnectEvent.closeSelf])
  | (st', AddResult.success role status cnt) =>
    (st', [ConnectEvent.connectedToSelf user_id role status cnt])

/-- A user is attached to some expired session of the table. -/
def expiredUser (st : SMState) (now : Nat) (u : String) : Bool :=
  st.sessions.any (fun p => decide (p.2.expires_at < now) && p.2.users.contains u)

/-- Every user-to-session entry names a stored session containing that
user, and no session holds more than 2 users. -/
def Invariant (st : SMState) : Prop :=
  (∀ u sid, dlookup st.user_to_session u = some sid →
    ∃ s, dlookup st.sessions sid = some s ∧ u ∈ s.users)
  ∧ ∀ p ∈ st.sessions, p.2.users.length ≤ 2

/-- The session record of a fully paired concrete session. -/
def pairedSession : Session :=
  { otp := "482193", created_at := 0, status := "connected",
    users := ["u1", "u2"], expires_at := 600,
    creator_id := some "u1", joiner_id := some "u2" }

/-- A concrete manager state holding one paired session with parties `u1`
(creator, handle 1) and `u2` (joiner, handle 2). -/
def pairedState : SMState :=
  { sessions := [("s1", pairedSession)]
    connections := [("u1", 1), ("u2", 2)]
    user_to_session := [("u1", "s1"), ("u2", "s1")] }

/-- A concrete manager state with one expired session (`s1`, expiry 600)
and one live session (`s2`, expiry 2100) as seen at time 700. -/
def sweepState : SMState :=
  { sessions :=
      [("s1", { otp := "111111", created_at := 0, status := "waiting_for_peer",
                users := ["u1"], expires_at := 600,
                creator_id := some "u1", joiner_id := none }),
       ("s2", { otp := "222222", created_at := 1500,
                status := "waiting_for_peer", users := ["u2"],
                expires_at := 2100, creator_id := some "u2",
                joiner_id := none })]
    connections := [("u1", 1), ("u2", 2)]
    user_to_session := [("u1", "s1"), ("u2", "s2")] }

/-- The six digit draws 4, 8, 2, 1, 9, 3. -/
def otpChoices : Fin 6 → Fin 10 := ![4, 8, 2, 1, 9, 3]

/-- The state after two `create_session` calls whose otp draws collide. -/
def duplicateOtpState : SMState :=
  (create_session
    (create_session initialState "sidA" (generate_otp otpChoices) 0).1
    "sidB" (generate_otp otpChoices) 0).1

/-! ### Association-list lemmas -/

theorem dlookup_dinsert_self {α : Type} (d : List (String × α)) (k : String)
    (v : α) : dlookup (dinsert d k v) k = some v := by
  induction d with
  | nil => simp [dinsert, dlookup]
  | cons p rest ih =>
    obtain ⟨k₁, v₁⟩ := p
    by_cases h : k₁ = k
    · simp [dinsert, h, dlookup]
    · simp [dinsert, h, dlookup, ih]

theorem dlookup_dinsert_ne {α : Type} (d : List (String × α)) (k k' : String)
    (v : α) (h : k' ≠ k) : dlookup (dinsert d k v) k' = dlookup d k' := by
  have h' : ¬ k = k' := fun he => h he.symm
  induction d with
  | nil => simp [dinsert, dlookup, h']
  | cons p rest ih =>
    obtain ⟨k₁, v₁⟩ := p
    by_cases h1 : k₁ = k
    · subst h1
      simp [dinsert, dlookup, h']
    · simp [dinsert, h1, dlookup, ih]

theorem mem_dinsert {α : Type} {d : List (String × α)} {k : String} {v : α}
    {p : String × α} (h : p ∈ dinsert d k v) : p = (k, v) ∨ p ∈ d := by
  induction d with
  | nil => simpa [dinsert] using h
  | cons q rest ih =>
    obtain ⟨k₁, v₁⟩ := q
    by_cases h1 : k₁ = k
    · simp [dinsert, h1] at h
      rcases h with h | h
      · exact Or.inl (by simp [h])
      · exact Or.inr (List.mem_cons_of_mem _ h)
    · simp [dinsert, h1] at h
      rcases h with h | h
      · exact Or.inr (by simp [h])
      · rcases ih h with h' | h'
        · exact Or.inl h'
        · exact Or.inr (List.mem_cons_of_mem _ h')

theorem dlookup_derase_self {α : Type} (d : List (String × α)) (k : String) :
    dlookup (derase d k) k = none := by
  induction d with
  | nil => simp [derase, dlookup]
  | cons p rest ih =>
    obtain ⟨k₁, v₁⟩ := p
    by_cases h : k₁ = k
    · simp [derase, h, ih]
    · simp [derase, h, dlookup, ih]

theorem dlookup_derase_ne {α : Type} (d : List (String × α)) (k k' : String)
    (h : k' ≠ k) : dlookup (derase d k) k' = dlookup d k' := by
  have h' : ¬ k = k' := fun he => h he.symm
  induction d with
  | nil => simp [derase]
  | cons p rest ih =>
    obtain ⟨k₁, v₁⟩ := p
    by_cases h1 : k₁ = k
    · subst h1
      simp [derase, dlookup, h', ih]
    · simp [derase, h1, dlookup, ih]

theorem mem_derase {α : Type} {d : List (String × α)} {k : String}
    {p : String × α} (h : p ∈ derase d k) : p ∈ d := by
  induction d with
  | nil => simp [derase] at h
  | cons q rest ih =>
    obtain ⟨k₁, v₁⟩ := q
    by_cases h1 : k₁ = k
    · simp [derase, h1] at h
      exact List.mem_cons_of_mem _ (ih h)
    · simp [derase, h1] at h
      rcases h with h | h
      · exact List.mem_cons.mpr (Or.inl (by simp [h]))
      · exact List.mem_cons_of_mem _ (ih h)

theorem derase_eq_of_lookup_none {α : Type} {d : List (String × α)}
    {k : String} (h : dlookup d k = none) : derase d k = d := by
  induction d with
  | nil => rfl
  | cons p rest ih =>
    obtain ⟨k₁, v₁⟩ := p
    by_cases h1 : k₁ = k
    · simp [dlookup, h1] at h
    · simp [dlookup, h1] at h
      simp [derase, h1, ih h]

theorem dlookup_mem {α : Type} {d : List (String × α)} {k : String} {v : α}
    (h : dlookup d k = some v) : (k, v) ∈ d := by
  induction d with
  | nil => simp [dlookup] at h
  | cons p rest ih =>
    obtain ⟨k₁, v₁⟩ := p
    by_cases h1 : k₁ = k
    · subst h1
      simp [dlookup] at h
      simp [h]
    · simp [dlookup, h1] at h
      exact List.mem_cons_of_mem _ (ih h)

theorem eq_of_mem_nodup_keys {α : Type} {d : List (String × α)}
    (hnd : (d.map Prod.fst).Nodup) {p q : String × α}
    (hp : p ∈ d) (hq : q ∈ d) (hk : p.1 = q.1) : p = q := by
  induction d with
  | nil => cases hp
  | cons a rest ih =>
    simp only [List.map_cons, List.nodup_cons] at hnd
    obtain ⟨ha, hrest⟩ := hnd
    rcases List.mem_cons.mp hp with hp1 | hp1 <;>
      rcases List.mem_cons.mp hq with hq1 | hq1
    · rw [hp1, hq1]
    · exfalso
      apply ha
      have hqm : q.1 ∈ rest.map Prod.fst := List.mem_map_of_mem Prod.fst hq1
      rw [hp1] at hk
      rw [hk]
      exact hqm
    · exfalso
      apply ha
      have hpm : p.1 ∈ rest.map Prod.fst := List.mem_map_of_mem Prod.fst hp1
      rw [hq1] at hk
      rw [← hk]
      exact hpm
    · exact ih hrest hp1 hq1

theorem dlookup_deraseAll {α : Type} (d : List (String × α)) (ks : List String)
    (k : String) :
    dlookup (deraseAll d ks) k = if k ∈ ks then none else dlookup d k := by
  induction ks generalizing d with
  | nil => simp [deraseAll]
  | cons k₁ rest ih =>
    have hstep : deraseAll d (k₁ :: rest) = deraseAll (derase d k₁) rest := rfl
    rw [hstep, ih]
    by_cases h2 : k = k₁
    · subst h2
      simp [dlookup_derase_self]
    · simp [h2, dlookup_derase_ne d k₁ k h2]

theorem mem_deraseAll {α : Type} {d : List (String × α)} {ks : List String}
    {p : String × α} (h : p ∈ deraseAll d ks) : p ∈ d := by
  induction ks generalizing d with
  | nil => exact h
  | cons k₁ rest ih => exact mem_derase (ih h)

theorem deraseAll_append {α : Type} (d : List (String × α))
    (ks₁ ks₂ : List String) :
    deraseAll d (ks₁ ++ ks₂) = deraseAll (deraseAll d ks₁) ks₂ := by
  simp [deraseAll, List.foldl_append]

theorem deraseAll_cons_entry {α : Type} (k₁ : String) (v₁ : α)
    (d : List (String × α)) (ks : List String) :
    deraseAll ((k₁, v₁) :: d) ks =
      if k₁ ∈ ks then deraseAll d ks else (k₁, v₁) :: deraseAll d ks := by
  induction ks generalizing d with
  | nil => simp [deraseAll]
  | cons k rest ih =>
    have hstep : deraseAll ((k₁, v₁) :: d) (k :: rest)
        = deraseAll (derase ((k₁, v₁) :: d) k) rest := rfl
    have hr : ∀ d' : List (String × α),
        deraseAll d' (k :: rest) = deraseAll (derase d' k) rest := fun _ => rfl
    rw [hstep]
    by_cases h : k₁ = k
    · have hq : derase ((k₁, v₁) :: d) k = derase d k := by simp [derase, h]
      rw [hq, hr d]
      simp [List.mem_cons, h]
    · have hq : derase ((k₁, v₁) :: d) k = (k₁, v₁) :: derase d k := by
        simp [derase, h]
      rw [hq, ih, hr d]
      simp [List.mem_cons, h]

theorem deraseAll_nil_left {α : Type} (ks : List String) :
    deraseAll ([] : List (String × α)) ks = [] := by
  induction ks with
  | nil => rfl
  | cons k rest ih =>
    have hstep : deraseAll ([] : List (String × α)) (k :: rest)
        = deraseAll (derase [] k) rest := rfl
    rw [hstep]
    exact ih

theorem deraseAll_eq_filter {α : Type} (d : List (String × α))
    (ks : List String) :
    deraseAll d ks = d.filter (fun p => !decide (p.1 ∈ ks)) := by
  induction d with
  | nil => simp [deraseAll_nil_left]
  | cons q rest ih =>
    obtain ⟨k₁, v₁⟩ := q
    rw [deraseAll_cons_entry]
    by_cases h : k₁ ∈ ks
    · simp [h, ih, List.filter_cons]
    · simp [h, ih, List.filter_cons]

/-! ### Decomposition of the expiry sweep -/

theorem cleanupUserFold_sessions (users : List String) (st : SMState) :
    (users.foldl cleanupUserStep st).sessions = st.sessions := by
  induction users generalizing st with
  | nil => rfl
  | cons u rest ih => simp [List.foldl_cons, ih, cleanupUserStep]

theorem cleanupUserFold_u2s (users : List String) (st : SMState) :
    (users.foldl cleanupUserStep st).user_to_session
      = deraseAll st.user_to_session users := by
  induction users generalizing st with
  | nil => rfl
  | cons u rest ih =>
    have hstep : deraseAll st.user_to_session (u :: rest)
        = deraseAll (derase st.user_to_session u) rest := rfl
    simp [List.foldl_cons, ih, cleanupUserStep, hstep]

theorem cleanupUserFold_conns (users : List String) (st : SMState) :
    (users.foldl cleanupUserStep st).connections
      = deraseAll st.connections users := by
  induction users generalizing st with
  | nil => rfl
  | cons u rest ih =>
    have hstep : deraseAll st.connections (u :: rest)
        = deraseAll (derase st.connections u) rest := rfl
    simp [List.foldl_cons, ih, cleanupUserStep, hstep]

theorem cleanupFold_sessions (l : List (String × Session)) (st : SMState) :
    (l.foldl cleanupStep st).sessions
      = deraseAll st.sessions (l.map Prod.fst) := by
  induction l generalizing st with
  | nil => rfl
  | cons p rest ih =>
    have hsess : (cleanupStep st p).sessions = derase st.sessions p.1 := by
      simp [cleanupStep, cleanupUserFold_sessions]
    have hstep : deraseAll st.sessions (p.1 :: rest.map Prod.fst)
        = deraseAll (derase st.sessions p.1) (rest.map Prod.fst) := rfl
    simp [List.foldl_cons, ih, hsess, hstep]

theorem cleanupFold_u2s (l : List (String × Session)) (st : SMState) :
    (l.foldl cleanupStep st).user_to_session
      = deraseAll st.user_to_session (l.flatMap (fun p => p.2.users)) := by
  induction l generalizing st with
  | nil => rfl
  | cons p rest ih =>
    have hu2s : (cleanupStep st p).user_to_session
        = deraseAll st.user_to_session p.2.users := by
      simp [cleanupStep, cleanupUserFold_u2s]
    simp [List.foldl_cons, ih, hu2s, List.flatMap_cons, deraseAll_append]

theorem cleanupFold_conns (l : List (String × Session)) (st : SMState) :
    (l.foldl cleanupStep st).connections
      = deraseAll st.connections (l.flatMap (fun p => p.2.users)) := by
  induction l generalizing st with
  | nil => rfl
  | cons p rest ih =>
    have hc : (cleanupStep st p).connections
        = deraseAll st.connections p.2.users := by
      simp [cleanupStep, cleanupUserFold_conns]
    simp [List.foldl_cons, ih, hc, List.flatMap_cons, deraseAll_append]

theorem expiredUser_iff_mem_flatMap (st : SMState) (now : Nat) (u : String) :
    expiredUser st now u = true
      ↔ u ∈ (st.sessions.filter
          (fun p => decide (p.2.expires_at < now))).flatMap
            (fun p => p.2.users) := by
  simp [expiredUser, List.any_eq_true, List.mem_flatMap, List.mem_filter]
  tauto

/-- C7: `cleanup_expired_sessions` removes exactly the sessions whose
`expires_at` is strictly before the current time (no unexpired session is
removed and every expired one is), removes the connection-registry and
user-to-session entries of all parties attached to those sessions, and
reports the number of sessions removed. -/
theorem cleanup_expired_sessions_spec (st : SMState) (now : Nat)
    (hnd : (st.sessions.map Prod.fst).Nodup) :
    (cleanup_expired_sessions st now).1.sessions
      = st.sessions.filter (fun p => !decide (p.2.expires_at < now))
    ∧ (cleanup_expired_sessions st now).2
        + (cleanup_expired_sessions st now).1.sessions.length
      = st.sessions.length
    ∧ (∀ u, dlookup (cleanup_expired_sessions st now).1.user_to_session u
        = if expiredUser st now u then none else dlookup st.user_to_session u)
    ∧ (∀ u, dlookup (cleanup_expired_sessions st now).1.connections u
        = if expiredUser st now u then none else dlookup st.connections u) := by
  have h1 : (cleanup_expired_sessions st now).1
      = (st.sessions.filter
          (fun p => decide (p.2.expires_at < now))).foldl cleanupStep st := rfl
  have h2 : (cleanup_expired_sessions st now).2
      = (st.sessions.filter (fun p => decide (p.2.expires_at < now))).length :=
    rfl
  have hsess : (cleanup_expired_sessions st now).1.sessions
      = st.sessions.filter (fun p => !decide (p.2.expires_at < now)) := by
    rw [h1, cleanupFold_sessions, deraseAll_eq_filter]
    apply List.filter_congr
    intro p hp
    have hiff : (p.1 ∈ (st.sessions.filter
        (fun p => decide (p.2.expires_at < now))).map Prod.fst)
        ↔ (p.2.expires_at < now) := by
      constructor
      · intro hmem
        obtain ⟨q, hq, hqe⟩ := List.mem_map.mp hmem
        have hq1 : q ∈ st.sessions := (List.mem_filter.mp hq).1
        have hq2 : q.2.expires_at < now :=
          of_decide_eq_true (List.mem_filter.mp hq).2
        have hqp : q = p := eq_of_mem_nodup_keys hnd hq1 hp hqe
        rw [← hqp]
        exact hq2
      · intro hlt
        exact List.mem_map.mpr
          ⟨p, List.mem_filter.mpr ⟨hp, decide_eq_true hlt⟩, rfl⟩
    simp [hiff]
  refine ⟨hsess, ?_, ?_, ?_⟩
  · rw [h2, hsess]
    have := List.length_eq_length_filter_add
      (l := st.sessions) (fun p => decide (p.2.expires_at < now))
    omega
  · intro u
    rw [h1, cleanupFold_u2s, dlookup_deraseAll]
    by_cases h : expiredUser st now u = true
    · have hm := (expiredUser_iff_mem_flatMap st now u).mp h
      simp [h, hm]
    · have hm : u ∉ (st.sessions.filter
          (fun p => decide (p.2.expires_at < now))).flatMap
            (fun p => p.2.users) :=
        fun hmem => h ((expiredUser_iff_mem_flatMap st now u).mpr hmem)
      simp [h, hm]
  · intro u
    rw [h1, cleanupFold_conns, dlookup_deraseAll]
    by_cases h : expiredUser st now u = true
    · have hm := (expiredUser_iff_mem_flatMap st now u).mp h
      simp [h, hm]
    · have hm : u ∉ (st.sessions.filter
          (fun p => decide (p.2.expires_at < now))).flatMap
            (fun p => p.2.users) :=
        fun hmem => h ((expiredUser_iff_mem_flatMap st now u).mpr hmem)
      simp [h, hm]

/-! ### C3: validate_otp -/

theorem validate_otp_scan_isSome (l : List (String × Session)) (otp : String)
    (now : Nat) :
    (validate_otp_scan l otp now).isSome
      ↔ ∃ p ∈ l,
          p.2.otp = otp ∧ now < p.2.expires_at ∧ p.2.users.length < 2 := by
  induction l with
  | nil => simp [validate_otp_scan]
  | cons p rest ih =>
    obtain ⟨sid, s⟩ := p
    by_cases h : s.otp = otp ∧ now < s.expires_at ∧ s.users.length < 2
    · constructor
      · intro _
        exact ⟨(sid, s), List.mem_cons_self _ _, h⟩
      · intro _
        simp [validate_otp_scan, h]
    · have hred : validate_otp_scan ((sid, s) :: rest) otp now
          = validate_otp_scan rest otp now := by simp [validate_otp_scan, h]
      rw [hred, ih]
      constructor
      · rintro ⟨q, hq, hcond⟩
        exact ⟨q, List.mem_cons_of_mem _ hq, hcond⟩
      · rintro ⟨q, hq, hcond⟩
        rcases List.mem_cons.mp hq with hq1 | hq1
        · subst hq1
          exact absurd hcond h
        · exact ⟨q, hq1, hcond⟩

theorem validate_otp_scan_sound {l : List (String × Session)} {otp : String}
    {now : Nat} {sid : String}
    (h : validate_otp_scan l otp now = some sid) :
    ∃ s, (sid, s) ∈ l
      ∧ s.otp = otp ∧ now < s.expires_at ∧ s.users.length < 2 := by
  induction l with
  | nil => simp [validate_otp_scan] at h
  | cons p rest ih =>
    obtain ⟨sid₁, s₁⟩ := p
    by_cases hc : s₁.otp = otp ∧ now < s₁.expires_at ∧ s₁.users.length < 2
    · simp [validate_otp_scan, hc] at h
      subst h
      exact ⟨s₁, List.mem_cons_self _ _, hc⟩
    · simp only [validate_otp_scan, if_neg hc] at h
      obtain ⟨s, hs, hcond⟩ := ih h
      exact ⟨s, List.mem_cons_of_mem _ hs, hcond⟩

/-- C3: `validate_otp` succeeds exactly when some stored session carries
that passcode, is unexpired (`now < expires_at`) and has fewer than 2
attached users, and every returned session id names such a session; in
particular full or expired sessions make their passcodes invalid. -/
theorem validate_otp_spec (st : SMState) (otp : String) (now : Nat) :
    ((validate_otp st otp now).isSome
      ↔ ∃ p ∈ st.sessions,
          p.2.otp = otp ∧ now < p.2.expires_at ∧ p.2.users.length < 2)
    ∧ ∀ sid, validate_otp st otp now = some sid →
        ∃ s, (sid, s) ∈ st.sessions
          ∧ s.otp = otp ∧ now < s.expires_at ∧ s.users.length < 2 :=
  ⟨validate_otp_scan_isSome st.sessions otp now,
   fun _ h => validate_otp_scan_sound h⟩

/-- C3 witness: the characterisation applied to a concrete state where the
passcode of the live one-user session `s2` validates at time 1700. -/
theorem validate_otp_spec_witness :
    ((validate_otp sweepState "222222" 1700).isSome
      ↔ ∃ p ∈ sweepState.sessions,
          p.2.otp = "222222" ∧ 1700 < p.2.expires_at
            ∧ p.2.users.length < 2)
    ∧ ∃ s, ("s2", s) ∈ sweepState.sessions
        ∧ s.otp = "222222" ∧ 1700 < s.expires_at ∧ s.users.length < 2 := by
  have h := validate_otp_spec sweepState "222222" 1700
  exact ⟨h.1, h.2 "s2" (by decide)⟩

/-! ### C6: detach semantics -/

/-- C6: when a registered party detaches, the session survives with status
reverted to `waiting_for_peer` (users, roles updated, expiry untouched)
whenever at least one party remains, and is deleted immediately when the
last party leaves. -/
theorem remove_user_detach_spec (st : SMState) (uid sid : String)
    (s : Session)
    (h1 : dlookup st.user_to_session uid = some sid)
    (h2 : dlookup st.sessions sid = some s)
    (h3 : uid ∈ s.users) :
    ((s.users.erase uid).length = 0 →
      dlookup (remove_user_from_session st uid).sessions sid = none)
    ∧ (0 < (s.users.erase uid).length →
      dlookup (remove_user_from_session st uid).sessions sid
        = some { otp := s.otp, created_at := s.created_at,
                 status := "waiting_for_peer",
                 users := s.users.erase uid,
                 expires_at := s.expires_at,
                 creator_id := if s.creator_id = some uid then none
                               else s.creator_id,
                 joiner_id := if s.joiner_id = some uid then none
                              else s.joiner_id }) := by
  constructor
  · intro hlen
    have hred : remove_user_from_session st uid
        = { sessions := derase st.sessions sid
            connections := derase st.connections uid
            user_to_session := derase st.user_to_session uid } := by
      simp [remove_user_from_session, h1, h2, h3, hlen]
    rw [hred]
    exact dlookup_derase_self _ _
  · intro hlen
    have hne : ¬ ((s.users.erase uid).length = 0) := by omega
    have hlen1 : (s.users.erase uid).length = s.users.length - 1 :=
      List.length_erase_of_mem h3
    have hne2 : ¬ (s.users.length - 1 = 0) := by omega
    have hred : remove_user_from_session st uid
        = { sessions := dinsert st.sessions sid
              { otp := s.otp, created_at := s.created_at,
                status := "waiting_for_peer",
                users := s.users.erase uid,
                expires_at := s.expires_at,
                creator_id := if s.creator_id = some uid then none
                              else s.creator_id,
                joiner_id := if s.joiner_id = some uid then none
                             else s.joiner_id }
            connections := derase st.connections uid
            user_to_session := derase st.user_to_session uid } := by
      simp [remove_user_from_session, h1, h2, h3, hne, hne2]
    rw [hred]
    exact dlookup_dinsert_self _ _ _

/-- C6 witness: detaching the joiner `u2` of the concrete paired session
keeps the session with status reverted to `waiting_for_peer`. -/
theorem remove_user_detach_spec_witness :
    0 < (pairedSession.users.erase "u2").length
    ∧ dlookup (remove_user_from_session pairedState "u2").sessions "s1"
      = some { otp := pairedSession.otp,
               created_at := pairedSession.created_at,
               status := "waiting_for_peer",
               users := pairedSession.users.erase "u2",
               expires_at := pairedSession.expires_at,
               creator_id := if pairedSession.creator_id = some "u2" then none
                             else pairedSession.creator_id,
               joiner_id := if pairedSession.joiner_id = some "u2" then none
                            else pairedSession.joiner_id } :=
  ⟨by decide,
   (remove_user_detach_spec pairedState "u2" "s1" pairedSession
      (by decide) (by decide) (by decide)).2 (by decide)⟩

/-! ### C9: remove_user_from_session is total and idempotent -/

theorem remove_absent_eq (st : SMState) (uid : String)
    (h1 : dlookup st.connections uid = none)
    (h2 : dlookup st.user_to_session uid = none) :
    remove_user_from_session st uid = st := by
  simp [remove_user_from_session, h2, derase_eq_of_lookup_none h1]

theorem remove_connections_eq (st : SMState) (uid : String) :
    (remove_user_from_session st uid).connections
      = derase st.connections uid := by
  rcases hc : dlookup st.user_to_session uid with _ | sid
  · simp [remove_user_from_session, hc]
  · rcases hs : dlookup st.sessions sid with _ | s
    · simp [remove_user_from_session, hc, hs]
    · simp only [remove_user_from_session, hc, hs]
      split_ifs <;> rfl

theorem remove_u2s_eq (st : SMState) (uid : String) :
    (remove_user_from_session st uid).user_to_session
      = derase st.user_to_session uid := by
  rcases hc : dlookup st.user_to_session uid with _ | sid
  · simp [remove_user_from_session, hc, derase_eq_of_lookup_none hc]
  · rcases hs : dlookup st.sessions sid with _ | s
    · simp [remove_user_from_session, hc, hs]
    · simp only [remove_user_from_session, hc, hs]
      split_ifs <;> rfl

theorem remove_clears_own_entries (st : SMState) (uid : String) :
    dlookup (remove_user_from_session st uid).connections uid = none
    ∧ dlookup (remove_user_from_session st uid).user_to_session uid
      = none := by
  constructor
  · rw [remove_connections_eq]
    exact dlookup_derase_self _ _
  · rw [remove_u2s_eq]
    exact dlookup_derase_self _ _

/-- C9: `remove_user_from_session` is total and idempotent: removing a
user that is registered in neither the connection table nor the
user-to-session map leaves the whole state unchanged, and removing any
user twice equals removing it once. -/
theorem remove_user_idempotent (st st₀ : SMState) (uid uid₀ : String)
    (h1 : dlookup st.connections uid = none)
    (h2 : dlookup st.user_to_session uid = none) :
    remove_user_from_session st uid = st
    ∧ remove_user_from_session (remove_user_from_session st₀ uid₀) uid₀
      = remove_user_from_session st₀ uid₀ :=
  ⟨remove_absent_eq st uid h1 h2,
   remove_absent_eq _ _ (remove_clears_own_entries st₀ uid₀).1
     (remove_clears_own_entries st₀ uid₀).2⟩

/-- C9 witness: removing the unknown user `u9` from the concrete paired
state is a no-op, and removing `u1` is idempotent there. -/
theorem remove_user_idempotent_witness :
    remove_user_from_session pairedState "u9" = pairedState
    ∧ remove_user_from_session (remove_user_from_session pairedState "u1")
        "u1"
      = remove_user_from_session pairedState "u1" :=
  remove_user_idempotent pairedState pairedState "u9" "u1"
    (by decide) (by decide)

/-! ### C8: third attach rejected, state untouched -/

/-- C8: a connection attempt to a session that already has 2 attached
parties is answered with a capacity error and a close on the connecting
party's own socket only, and the manager state is left completely
unchanged. -/
theorem third_attach_rejected (st : SMState) (sid uid : String) (ws : Nat)
    (s : Session) (h : dlookup st.sessions sid = some s)
    (hfull : s.users.length = 2) :
    handle_connect st sid uid ws
      = (st, [ConnectEvent.errorToSelf "Session full",
              ConnectEvent.closeSelf]) := by
  have hadd : add_user_to_session st sid uid ws
      = (st, AddResult.failure "Session full") := by
    simp [add_user_to_session, h, hfull]
  simp [handle_connect, hadd]

/-- C8 witness: a third party `u3` connecting to the concrete paired
session is rejected and the state is untouched. -/
theorem third_attach_rejected_witness :
    handle_connect pairedState "s1" "u3" 3
      = (pairedState, [ConnectEvent.errorToSelf "Session full",
                       ConnectEvent.closeSelf]) :=
  third_attach_rejected pairedState "s1" "u3" 3 pairedSession
    (by decide) (by decide)

/-! ### C10: cross-table invariant -/

theorem invariant_insert_aux (st : SMState) (sid uid : String) (ws : Nat)
    (s s' : Session) (h : dlookup st.sessions sid = some s)
    (husers : s'.users = s.users ++ [uid])
    (hle : s.users.length ≤ 1) (hinv : Invariant st) :
    Invariant { sessions := dinsert st.sessions sid s',
                connections := dinsert st.connections uid ws,
                user_to_session := dinsert st.user_to_session uid sid } := by
  obtain ⟨hmap, hlen⟩ := hinv
  constructor
  · intro u sid' hu
    by_cases hcase : u = uid
    · subst hcase
      rw [dlookup_dinsert_self] at hu
      have hs : sid' = sid := (Option.some.inj hu).symm
      subst hs
      refine ⟨s', dlookup_dinsert_self _ _ _, ?_⟩
      rw [husers]
      simp
    · rw [dlookup_dinsert_ne _ _ _ _ hcase] at hu
      obtain ⟨s₀, hs₀, hmem⟩ := hmap u sid' hu
      by_cases hsid : sid' = sid
      · subst hsid
        have hs0 : s₀ = s := by
          rw [h] at hs₀
          exact (Option.some.inj hs₀).symm
        refine ⟨s', dlookup_dinsert_self _ _ _, ?_⟩
        rw [husers]
        exact List.mem_append_left _ (hs0 ▸ hmem)
      · refine ⟨s₀, ?_, hmem⟩
        rw [dlookup_dinsert_ne _ _ _ _ hsid]
        exact hs₀
  · intro p hp
    rcases mem_dinsert hp with hpe | hpd
    · rw [hpe]
      simp only [husers, List.length_append, List.length_singleton]
      omega
    · exact hlen p hpd

theorem add_user_preserves_invariant (st : SMState) (sid uid : String)
    (ws : Nat) (hinv : Invariant st) :
    Invariant (add_user_to_session st sid uid ws).1 := by
  cases h : dlookup st.sessions sid with
  | none =>
    have hred : (add_user_to_session st sid uid ws).1 = st := by
      simp [add_user_to_session, h]
    rw [hred]
    exact hinv
  | some s =>
    by_cases h2 : 2 ≤ s.users.length
    · have hred : (add_user_to_session st sid uid ws).1 = st := by
        simp [add_user_to_session, h, h2]
      rw [hred]
      exact hinv
    · have hle : s.users.length ≤ 1 := by omega
      by_cases h3 : (s.users ++ [uid]).length = 1
      · have hred : (add_user_to_session st sid uid ws).1
            = { sessions := dinsert st.sessions sid
                  { s with users := s.users ++ [uid],
                           creator_id := some uid },
                connections := dinsert st.connections uid ws,
                user_to_session := dinsert st.user_to_session uid sid } := by
          simp [add_user_to_session, h, h2, h3]
        rw [hred]
        exact invariant_insert_aux st sid uid ws s _ h rfl hle hinv
      · have hred : (add_user_to_session st sid uid ws).1
            = { sessions := dinsert st.sessions sid
                  { s with users := s.users ++ [uid],
                           joiner_id := some uid, status := "connected" },
                connections := dinsert st.connections uid ws,
                user_to_session := dinsert st.user_to_session uid sid } := by
          have h3' : s.users ≠ [] := by
            intro he
            apply h3
            simp [he]
          simp [add_user_to_session, h, h2, h3, h3']
        rw [hred]
        exact invariant_insert_aux st sid uid ws s _ h rfl hle hinv

theorem remove_user_preserves_invariant (st : SMState) (uid : String)
    (hinv : Invariant st) :
    Invariant (remove_user_from_session st uid) := by
  obtain ⟨hmap, hlen⟩ := hinv
  cases h1 : dlookup st.user_to_session uid with
  | none =>
    have hred : remove_user_from_session st uid
        = { st with connections := derase st.connections uid } := by
      simp [remove_user_from_session, h1]
    rw [hred]
    exact ⟨hmap, hlen⟩
  | some sid₀ =>
    cases h2 : dlookup st.sessions sid₀ with
    | none =>
      have hred : remove_user_from_session st uid
          = { st with connections := derase st.connections uid,
                      user_to_session := derase st.user_to_session uid } := by
        simp [remove_user_from_session, h1, h2]
      rw [hred]
      constructor
      · intro u sid hu
        have hne : u ≠ uid := by
          intro he
          subst he
          rw [dlookup_derase_self] at hu
          cases hu
        rw [dlookup_derase_ne _ _ _ hne] at hu
        exact hmap u sid hu
      · exact hlen
    | some s =>
      by_cases h3 : uid ∈ s.users
      · by_cases h4 : (s.users.erase uid).length = 0
        · have hred : remove_user_from_session st uid
              = { sessions := derase st.sessions sid₀,
                  connections := derase st.connections uid,
                  user_to_session := derase st.user_to_session uid } := by
            simp [remove_user_from_session, h1, h2, h3, h4,
              List.length_erase_of_mem h3]
          rw [hred]
          constructor
          · intro u sid hu
            have hne : u ≠ uid := by
              intro he
              subst he
              rw [dlookup_derase_self] at hu
              cases hu
            rw [dlookup_derase_ne _ _ _ hne] at hu
            obtain ⟨s₀, hs₀, hmem⟩ := hmap u sid hu
            by_cases hsid : sid = sid₀
            · exfalso
              subst hsid
              have hs0 : s₀ = s := by
                rw [h2] at hs₀
                exact (Option.some.inj hs₀).symm
              subst hs0
              have hmem' : u ∈ s₀.users.erase uid :=
                (List.mem_erase_of_ne hne).mpr hmem
              rw [List.length_eq_zero.mp h4] at hmem'
              cases hmem'
            · refine ⟨s₀, ?_, hmem⟩
              rw [dlookup_derase_ne _ _ _ hsid]
              exact hs₀
          · intro p hp
            exact hlen p (mem_derase hp)
        · have hred : remove_user_from_session st uid
              = { sessions := dinsert st.sessions sid₀
                    { otp := s.otp, created_at := s.created_at,
                      status := "waiting_for_peer",
                      users := s.users.erase uid,
                      expires_at := s.expires_at,
                      creator_id := if s.creator_id = some uid then none
                                    else s.creator_id,
                      joiner_id := if s.joiner_id = some uid then none
                                   else s.joiner_id },
                  connections := derase st.connections uid,
                  user_to_session := derase st.user_to_session uid } := by
            have h4' : ¬ (s.users.length - 1 = 0) := by
              have := List.length_erase_of_mem h3
              omega
            simp [remove_user_from_session, h1, h2, h3, h4, h4']
          rw [hred]
          constructor
          · intro u sid hu
            have hne : u ≠ uid := by
              intro he
              subst he
              rw [dlookup_derase_self] at hu
              cases hu
            rw [dlookup_derase_ne _ _ _ hne] at hu
            obtain ⟨s₀, hs₀, hmem⟩ := hmap u sid hu
            by_cases hsid : sid = sid₀
            · subst hsid
              have hs0 : s₀ = s := by
                rw [h2] at hs₀
                exact (Option.some.inj hs₀).symm
              subst hs0
              exact ⟨_, dlookup_dinsert_self _ _ _,
                (List.mem_erase_of_ne hne).mpr hmem⟩
            · refine ⟨s₀, ?_, hmem⟩
              rw [dlookup_dinsert_ne _ _ _ _ hsid]
              exact hs₀
          · intro p hp
            rcases mem_dinsert hp with hpe | hpd
            · rw [hpe]
              have hsub : (s.users.erase uid).length ≤ s.users.length :=
                (List.erase_sublist _ _).length_le
              have hs2 : s.users.length ≤ 2 := hlen _ (dlookup_mem h2)
              simpa using le_trans hsub hs2
            · exact hlen p hpd
      · by_cases h4 : s.users.length = 0
        · have hred : remove_user_from_session st uid
              = { sessions := derase st.sessions sid₀,
                  connections := derase st.connections uid,
                  user_to_session := derase st.user_to_session uid } := by
            simp [remove_user_from_session, h1, h2, h3, h4]
          rw [hred]
          constructor
          · intro u sid hu
            have hne : u ≠ uid := by
              intro he
              subst he
              rw [dlookup_derase_self] at hu
              cases hu
            rw [dlookup_derase_ne _ _ _ hne] at hu
            obtain ⟨s₀, hs₀, hmem⟩ := hmap u sid hu
            by_cases hsid : sid = sid₀
            · exfalso
              subst hsid
              have hs0 : s₀ = s := by
                rw [h2] at hs₀
                exact (Option.some.inj hs₀).symm
              subst hs0
              rw [List.length_eq_zero.mp h4] at hmem
              cases hmem
            · refine ⟨s₀, ?_, hmem⟩
              rw [dlookup_derase_ne _ _ _ hsid]
              exact hs₀
          · intro p hp
            exact hlen p (mem_derase hp)
        · have hred : remove_user_from_session st uid
              = { sessions := dinsert st.sessions sid₀
                    { s with status := "waiting_for_peer" },
                  connections := derase st.connections uid,
                  user_to_session := derase st.user_to_session uid } := by
            simp [remove_user_from_session, h1, h2, h3, h4]
          rw [hred]
          constructor
          · intro u sid hu
            have hne : u ≠ uid := by
              intro he
              subst he
              rw [dlookup_derase_self] at hu
              cases hu
            rw [dlookup_derase_ne _ _ _ hne] at hu
            obtain ⟨s₀, hs₀, hmem⟩ := hmap u sid hu
            by_cases hsid : sid = sid₀
            · subst hsid
              have hs0 : s₀ = s := by
                rw [h2] at hs₀
                exact (Option.some.inj hs₀).symm
              subst hs0
              exact ⟨_, dlookup_dinsert_self _ _ _, hmem⟩
            · refine ⟨s₀, ?_, hmem⟩
              rw [dlookup_dinsert_ne _ _ _ _ hsid]
              exact hs₀
          · intro p hp
            rcases mem_dinsert hp with hpe | hpd
            · rw [hpe]
              simpa using hlen _ (dlookup_mem h2)
            · exact hlen p hpd

theorem cleanup_preserves_invariant (st : SMState) (now : Nat)
    (hnd : (st.sessions.map Prod.fst).Nodup) (hinv : Invariant st) :
    Invariant (cleanup_expired_sessions st now).1 := by
  obtain ⟨hmap, hlen⟩ := hinv
  have h1 : (cleanup_expired_sessions st now).1
      = (st.sessions.filter
          (fun p => decide (p.2.expires_at < now))).foldl cleanupStep st :=
    rfl
  constructor
  · intro u sid hu
    rw [h1, cleanupFold_u2s, dlookup_deraseAll] at hu
    by_cases hm : u ∈ (st.sessions.filter
        (fun p => decide (p.2.expires_at < now))).flatMap
          (fun p => p.2.users)
    · simp [hm] at hu
    · rw [if_neg hm] at hu
      obtain ⟨s, hs, hmem⟩ := hmap u sid hu
      refine ⟨s, ?_, hmem⟩
      rw [h1, cleanupFold_sessions, dlookup_deraseAll]
      have hnot : sid ∉ (st.sessions.filter
          (fun p => decide (p.2.expires_at < now))).map Prod.fst := by
        intro hmemk
        obtain ⟨q, hq, hqe⟩ := List.mem_map.mp hmemk
        have hq1 : q ∈ st.sessions := (List.mem_filter.mp hq).1
        have hqp : q = (sid, s) :=
          eq_of_mem_nodup_keys hnd hq1 (dlookup_mem hs) hqe
        apply hm
        refine List.mem_flatMap.mpr ⟨q, hq, ?_⟩
        rw [hqp]
        exact hmem
      rw [if_neg hnot]
      exact hs
  · intro p hp
    rw [h1, cleanupFold_sessions] at hp
    exact hlen p (mem_deraseAll hp)

/-- C10: each session-manager operation preserves the cross-table
invariant: every user-to-session entry points at a stored session whose
user list contains that user, and every session has at most 2 users (the
sweep additionally relies on session-table keys being unique, which holds
in every reachable state). -/
theorem session_manager_invariant_preserved (st : SMState)
    (sid uid uidR : String) (ws : Nat) (now : Nat) (hinv : Invariant st) :
    Invariant (add_user_to_session st sid uid ws).1
    ∧ Invariant (remove_user_from_session st uidR)
    ∧ ((st.sessions.map Prod.fst).Nodup →
        Invariant (cleanup_expired_sessions st now).1) :=
  ⟨add_user_preserves_invariant st sid uid ws hinv,
   remove_user_preserves_invariant st uidR hinv,
   fun hnd => cleanup_preserves_invariant st now hnd hinv⟩

theorem invariant_pairedState : Invariant pairedState := by
  constructor
  · intro u sid h
    by_cases h1 : ("u1" : String) = u
    · subst h1
      have hv : dlookup pairedState.user_to_session "u1" = some "s1" := by
        decide
      rw [hv] at h
      have hs : sid = "s1" := (Option.some.inj h).symm
      subst hs
      exact ⟨pairedSession, by decide, by decide⟩
    · by_cases h2 : ("u2" : String) = u
      · subst h2
        have hv : dlookup pairedState.user_to_session "u2" = some "s1" := by
          decide
        rw [hv] at h
        have hs : sid = "s1" := (Option.some.inj h).symm
        subst hs
        exact ⟨pairedSession, by decide, by decide⟩
      · have hv : dlookup pairedState.user_to_session u = none := by
          simp [pairedState, dlookup, h1, h2]
        rw [hv] at h
        cases h
  · intro p hp
    have hp1 : p = ("s1", pairedSession) := by
      simpa [pairedState] using hp
    rw [hp1]
    decide

/-- C10 witness: invariant preservation applied to the concrete paired
state, whose invariant is proved directly. -/
theorem session_manager_invariant_preserved_witness :
    Invariant (add_user_to_session pairedState "s1" "u3" 3).1
    ∧ Invariant (remove_user_from_session pairedState "u1")
    ∧ ((pairedState.sessions.map Prod.fst).Nodup →
        Invariant (cleanup_expired_sessions pairedState 700).1) :=
  session_manager_invariant_preserved pairedState "s1" "u3" "u1" 3 700
    invariant_pairedState

/-! ### C1: passcode generation and (absence of) collision handling -/

/-- C1 counterexample: after two back-to-back `create_session` calls whose
random draws coincide, the store holds two distinct sessions, both live
until time 600, carrying the same passcode `482193` — so passcodes are not
unique among live sessions and no retry-on-collision happens. -/
theorem passcode_collision_counterexample :
    ("sidA" : String) ≠ "sidB"
    ∧ (dlookup duplicateOtpState.sessions "sidA").map Session.otp
      = some "482193"
    ∧ (dlookup duplicateOtpState.sessions "sidB").map Session.otp
      = some "482193"
    ∧ (dlookup duplicateOtpState.sessions "sidA").map Session.expires_at
      = some 600
    ∧ (dlookup duplicateOtpState.sessions "sidB").map Session.expires_at
      = some 600 := by
  refine ⟨by decide, by decide, by decide, by decide, by decide⟩

/-- C1 amended: every generated passcode is a 6-character digit string,
but `create_session` stores the freshly drawn passcode unconditionally —
it never consults the existing sessions and never retries on collision
(all other entries are left untouched) — so two sessions that are live at
the same instant may share a passcode. -/
theorem create_session_no_collision_retry (choices : Fin 6 → Fin 10)
    (st : SMState) (sid sid' : String) (now : Nat) (h : sid' ≠ sid) :
    (generate_otp choices).length = 6
    ∧ (generate_otp choices).data.all Char.isDigit = true
    ∧ dlookup (create_session st sid (generate_otp choices) now).1.sessions
        sid
      = some { otp := generate_otp choices, created_at := now,
               status := "waiting_for_peer", users := [],
               expires_at := now + sessionTTL, creator_id := none,
               joiner_id := none }
    ∧ dlookup (create_session st sid (generate_otp choices) now).1.sessions
        sid'
      = dlookup st.sessions sid' := by
  refine ⟨?_, ?_, ?_, ?_⟩
  · show ((List.finRange 6).map
      (fun i => Char.ofNat (48 + (choices i).val))).length = 6
    simp
  · have hdata : (generate_otp choices).data
        = (List.finRange 6).map (fun i => Char.ofNat (48 + (choices i).val)) :=
      rfl
    rw [hdata, List.all_eq_true]
    intro c hc
    obtain ⟨i, _, hci⟩ := List.mem_map.mp hc
    rw [← hci]
    have hdigit : ∀ v : Fin 10, (Char.ofNat (48 + v.val)).isDigit = true := by
      decide
    exact hdigit (choices i)
  · exact dlookup_dinsert_self _ _ _
  · exact dlookup_dinsert_ne _ _ _ _ h

/-- C1 witness: the amended statement at the concrete draws 482193 on the
empty store. -/
theorem create_session_no_collision_retry_witness :
    (generate_otp otpChoices).length = 6
    ∧ (generate_otp otpChoices).data.all Char.isDigit = true
    ∧ dlookup (create_session initialState "sidA" (generate_otp otpChoices)
        0).1.sessions "sidA"
      = some { otp := generate_otp otpChoices, created_at := 0,
               status := "waiting_for_peer", users := [],
               expires_at := 0 + sessionTTL, creator_id := none,
               joiner_id := none }
    ∧ dlookup (create_session initialState "sidA" (generate_otp otpChoices)
        0).1.sessions "sidB"
      = dlookup initialState.sessions "sidB" :=
  create_session_no_collision_retry otpChoices initialState "sidA" "sidB" 0
    (by decide)

/-! ### C2: relay routing -/

/-- C2 counterexample: a well-formed message of the non-reserved type
`file-meta`, sent by the attached party `u1` of a fully paired session, is
not forwarded to the peer: the router answers the sender with an
unknown-type error instead, because forwarding is restricted to a fixed
whitelist of types. -/
theorem relay_opaque_type_counterexample :
    (handle_message pairedState "u1" ⟨some "file-meta", some "X"⟩ 50).2
      = OutEvent.errorToSender "Unknown message type: file-meta"
    ∧ OutEvent.isForward
        (handle_message pairedState "u1" ⟨some "file-meta", some "X"⟩ 50).2
      = false := by
  exact ⟨rfl, rfl⟩

/-- C2 amended: the relay forwards exactly the whitelisted types `offer`,
`answer`, `ice-candidate`, `file-info`, `transfer-complete` as the
envelope (type, from = sender id, data, timestamp) to the peer's
connection; `ping` is answered locally with `pong` and never forwarded;
every other type is answered locally with an unknown-type error and never
forwarded. -/
theorem relay_routing_spec (st : SMState) (u : String) (d : Option String)
    (now : Nat) (ws : Nat) :
    (∀ t, signalingTypes.contains t = true →
        get_peer_connection st u = some ws →
        handle_message st u ⟨some t, d⟩ now
          = (st, OutEvent.forwardToPeer ws t u d now))
    ∧ handle_message st u ⟨some "ping", d⟩ now
      = (st, OutEvent.pongToSender now)
    ∧ (∀ t, signalingTypes.contains t = false → t ≠ "ping" →
        handle_message st u ⟨some t, d⟩ now
          = (st, OutEvent.errorToSender ("Unknown message type: " ++ t))) := by
  refine ⟨?_, ?_, ?_⟩
  · intro t ht hp
    have ht' : t ∈ signalingTypes := by simpa using ht
    simp [handle_message, ht', hp]
  · have hping : "ping" ∉ signalingTypes := by decide
    simp [handle_message, hping]
  · intro t ht hne
    have ht' : t ∉ signalingTypes := by simpa using ht
    simp [handle_message, ht', hne]

/-- C2 witness: in the concrete paired state, an `offer` from `u1` is
forwarded to `u2`'s handle as the envelope, and a `ping` is answered with
`pong`. -/
theorem relay_routing_spec_witness :
    handle_message pairedState "u1" ⟨some "offer", some "X"⟩ 50
      = (pairedState, OutEvent.forwardToPeer 2 "offer" "u1" (some "X") 50)
    ∧ handle_message pairedState "u1" ⟨some "ping", none⟩ 50
      = (pairedState, OutEvent.pongToSender 50) :=
  ⟨(relay_routing_spec pairedState "u1" (some "X") 50 2).1 "offer"
      (by decide) (by decide),
   (relay_routing_spec pairedState "u1" none 50 2).2.1⟩

/-! ### C4: relay activity and session expiry -/

/-- C4 counterexample: at time 100 the attached party `u1` of the concrete
paired session (created at 0, expiring at 600) successfully relays an
`offer` to its peer, yet the session store is completely unchanged: the
session's `expires_at` stays 600 instead of being extended to
`now + TTL = 700`. -/
theorem relay_does_not_touch_expiry_counterexample :
    (handle_message pairedState "u1" ⟨some "offer", some "X"⟩ 100).2
      = OutEvent.forwardToPeer 2 "offer" "u1" (some "X") 100
    ∧ (handle_message pairedState "u1" ⟨some "offer", some "X"⟩ 100).1
      = pairedState
    ∧ (dlookup pairedState.sessions "s1").map Session.expires_at = some 600
    ∧ (600 : Nat) ≠ 100 + sessionTTL := by
  exact ⟨rfl, rfl, rfl, by decide⟩

/-- C4 amended: handling an inbound relay message never writes the session
store at all — there is no touch operation — so `expires_at` keeps the
value `created_at + TTL` set at creation no matter how much relay traffic
the session carries. -/
theorem relay_leaves_state_unchanged (st : SMState) (u : String)
    (msg : InMsg) (now : Nat) : (handle_message st u msg now).1 = st := by
  obtain ⟨mt, d⟩ := msg
  cases mt with
  | none => rfl
  | some t =>
    by_cases h : t ∈ signalingTypes
    · cases hp : get_peer_connection st u with
      | some ws => simp [handle_message, h, hp]
      | none => simp [handle_message, h, hp]
    · by_cases h2 : t = "ping"
      · have hping : ("ping" : String) ∉ signalingTypes := by decide
        simp [handle_message, h, h2, hping]
      · simp [handle_message, h, h2]

/-! ### C5: roles across detach and resume -/

/-- C5 counterexample: in the concrete paired session, `u1` holds the
`creator` role; after `u1` detaches and reattaches while the joiner `u2`
is still present, the code assigns `u1` the role `joiner` — the opposite
role — rather than restoring its prior role. -/
theorem resume_role_counterexample :
    (dlookup pairedState.sessions "s1").map Session.creator_id
      = some (some "u1")
    ∧ (add_user_to_session (remove_user_from_session pairedState "u1")
        "s1" "u1" 3).2
      = AddResult.success "joiner" "connected" 2 := by
  exact ⟨rfl, rfl⟩

/-- C5 amended: the role handed to an attaching party is determined purely
by the session's current occupancy — an empty user list yields `creator`,
a single occupant yields `joiner` — so a reattaching party's previous role
is not restored: it receives whichever role the occupancy dictates. -/
theorem attach_role_by_occupancy (st : SMState) (sid uid : String)
    (ws : Nat) (s : Session) (h : dlookup st.sessions sid = some s) :
    (s.users = [] →
      (add_user_to_session st sid uid ws).2
        = AddResult.success "creator" s.status 1)
    ∧ (s.users.length = 1 →
      (add_user_to_session st sid uid ws).2
        = AddResult.success "joiner" "connected" 2) := by
  constructor
  · intro he
    simp [add_user_to_session, h, he]
  · intro hlen
    have h2 : ¬ 2 ≤ s.users.length := by omega
    have h3 : s.users ≠ [] := by
      intro he
      rw [he] at hlen
      cases hlen
    simp [add_user_to_session, h, h2, h3, hlen]

/-- C5 witness: attaching the fresh party `u7` to the detached session
(single occupant `u2`) yields role `joiner`. -/
theorem attach_role_by_occupancy_witness :
    (add_user_to_session (remove_user_from_session pairedState "u1")
        "s1" "u7" 7).2
      = AddResult.success "joiner" "connected" 2 :=
  (attach_role_by_occupancy (remove_user_from_session pairedState "u1")
    "s1" "u7" 7
    { otp := "482193", created_at := 0, status := "waiting_for_peer",
      users := ["u2"], expires_at := 600, creator_id := none,
      joiner_id := some "u2" } (by decide)).2 (by decide)

/-- C7 witness: the sweep characterisation applied at time 700 to the
concrete state with one expired and one live session. -/
theorem cleanup_expired_sessions_spec_witness :
    (cleanup_expired_sessions sweepState 700).1.sessions
      = sweepState.sessions.filter (fun p => !decide (p.2.expires_at < 700))
    ∧ (cleanup_expired_sessions sweepState 700).2
        + (cleanup_expired_sessions sweepState 700).1.sessions.length
      = sweepState.sessions.length
    ∧ dlookup (cleanup_expired_sessions sweepState 700).1.user_to_session
        "u1"
      = (if expiredUser sweepState 700 "u1" then none
         else dlookup sweepState.user_to_session "u1")
    ∧ dlookup (cleanup_expired_sessions sweepState 700).1.connections "u1"
      = (if expiredUser sweepState 700 "u1" then none
         else dlookup sweepState.connections "u1") := by
  have h := cleanup_expired_sessions_spec sweepState 700 (by decide)
  exact ⟨h.1, h.2.1, h.2.2.1 "u1", h.2.2.2 "u1"⟩

end FileTransferP2P
